import Mathlib

/-!
Verification development for the `al-tool` repository.

Shallow embedding of the two core components:
* `scripts/xlsb_to_xlsx.py` — the streaming conversion engine
  (value normalization, sheet-bounds checking, format dispatch);
* `scripts/conversion_worker.py` — the worker loop
  (job claiming over the SQLite `bases` table, path resolution,
  poll/backoff policy).

Machine integers are modelled as `Int`/`Nat`; Python floats are modelled
by their canonical `str()` form (see `PyVal.float`); fallible Python code
is modelled with `Option`/`Except`.
-/

namespace AlTool

/-! ### Python decimal strings

`scripts/xlsb_to_xlsx.py` turns every numeric cell into
`Decimal(str(v))` and then renders it with `format(d, "f")`.
`PyDecimal` models a finite `decimal.Decimal` value exactly as CPython
stores it: a sign, a coefficient (an arbitrary-precision integer whose
decimal digits are the stored digit string), and a decimal exponent. -/

structure PyDecimal where
  sign : Bool
  coeff : Nat
  exp : Int
  deriving Repr, DecidableEq

/-- Digits of a decimal string folded into a natural number
(`int(intpart + fracpart)` in CPython's `_pydecimal`). -/
def digitsToNat (l : List Char) : Nat :=
  l.foldl (fun a c => a * 10 + (c.toNat - 48)) 0

/-- `Decimal(s)` for the numeric-literal grammar
`[sign] (digits [. digits] | . digits) [(e|E) [sign] digits]`,
which covers every string `str(v)` produces for a finite Python int or
float.  CPython raises `InvalidOperation` on anything else; that is
modelled by `none`. -/
def parseDecimal (s : String) : Option PyDecimal :=
  let cs := s.toList
  let signAndRest : Bool × List Char :=
    match cs with
    | '-' :: rest => (true, rest)
    | '+' :: rest => (false, rest)
    | _ => (false, cs)
  let sign := signAndRest.1
  let cs0 := signAndRest.2
  let intPart := cs0.takeWhile Char.isDigit
  let cs1 := cs0.drop intPart.length
  let fracAndRest : List Char × List Char :=
    match cs1 with
    | '.' :: rest => (rest.takeWhile Char.isDigit,
                      rest.drop (rest.takeWhile Char.isDigit).length)
    | _ => ([], cs1)
  let fracPart := fracAndRest.1
  let cs2 := fracAndRest.2
  if intPart.isEmpty && fracPart.isEmpty then none
  else
    match cs2 with
    | [] => some ⟨sign, digitsToNat (intPart ++ fracPart), -(fracPart.length : Int)⟩
    | e :: rest =>
      if e == 'e' || e == 'E' then
        let esignAndRest : Bool × List Char :=
          match rest with
          | '-' :: r => (true, r)
          | '+' :: r => (false, r)
          | _ => (false, rest)
        let eds := esignAndRest.2.takeWhile Char.isDigit
        if eds.isEmpty || !(esignAndRest.2.drop eds.length).isEmpty then none
        else
          let eVal : Int := if esignAndRest.1 then -(digitsToNat eds : Int) else (digitsToNat eds : Int)
          some ⟨sign, digitsToNat (intPart ++ fracPart), eVal - (fracPart.length : Int)⟩
      else none

/-- Decimal digit characters of a natural number; fuel-based so concrete
values reduce definitionally.  `natDigitsAux fuel n` is the digit list of
`n` whenever `fuel > 0` is large enough (`fuel ≥ n + 1` always suffices). -/
def natDigitsAux : Nat → Nat → List Char
  | 0, _ => []
  | fuel + 1, n =>
    if n < 10 then [Char.ofNat (48 + n)]
    else natDigitsAux fuel (n / 10) ++ [Char.ofNat (48 + n % 10)]

/-- `str(n)` for a Python non-negative integer. -/
def pyNatStr (n : Nat) : String := ⟨natDigitsAux (n + 1) n⟩

/-- `str(n)` for a Python integer. -/
def pyIntStr (i : Int) : String :=
  if i < 0 then "-" ++ pyNatStr i.natAbs else pyNatStr i.natAbs

/-- `format(d, "f")`: fixed-point rendering of a `Decimal`, never using
scientific notation, preserving the stored coefficient's significance. -/
def formatF (d : PyDecimal) : String :=
  let ds := natDigitsAux (d.coeff + 1) d.coeff
  let body :=
    if 0 ≤ d.exp then
      ds ++ List.replicate d.exp.toNat '0'
    else
      let n := (-d.exp).toNat
      if n < ds.length then
        ds.take (ds.length - n) ++ '.' :: ds.drop (ds.length - n)
      else
        '0' :: '.' :: (List.replicate (n - ds.length) '0' ++ ds)
  ⟨if d.sign then '-' :: body else body⟩

/-! ### Python cell values -/

/-- A Python value as it can appear in a spreadsheet cell handed to
`_normalize_value_for_json`.

A float is represented by its canonical `str()` form: since CPython 3.1,
`str` of a finite float is the shortest decimal string that round-trips
to the same binary64 value.  In particular the binary float nearest
`19.99` (whose exact value is `5626684784446013 / 2^48`, not `1999/100`)
has canonical form `"19.99"`.

`other` covers any further Python object, carrying whether `json.dumps`
accepts it and its `str()` form. -/
inductive PyVal where
  | none
  | bool (b : Bool)
  | int (n : Int)
  | float (canonicalStr : String)
  | decimal (d : PyDecimal)
  | date (y m d : Nat)
  | datetime (y mo d h mi s : Nat)
  | str (s : String)
  | other (jsonOk : Bool) (strForm : String)
  deriving Repr, DecidableEq

/-- Zero-pad to two digits. -/
def pad2 (n : Nat) : String := if n < 10 then "0" ++ pyNatStr n else pyNatStr n

/-- Zero-pad to four digits (years in `date.isoformat`). -/
def pad4 (n : Nat) : String :=
  if n < 10 then "000" ++ pyNatStr n
  else if n < 100 then "00" ++ pyNatStr n
  else if n < 1000 then "0" ++ pyNatStr n
  else pyNatStr n

/-- `date(y, m, d).isoformat()`. -/
def isoDate (y m d : Nat) : String := pad4 y ++ "-" ++ pad2 m ++ "-" ++ pad2 d

/-- `datetime(...).isoformat()` at second precision (microsecond 0). -/
def isoDatetime (y mo d h mi s : Nat) : String :=
  isoDate y mo d ++ "T" ++ pad2 h ++ ":" ++ pad2 mi ++ ":" ++ pad2 s

/-- `isinstance(v, bool)`. -/
def PyVal.isinstance_bool : PyVal → Bool
  | .bool _ => true
  | _ => false

/-- `isinstance(v, (int, float))`.  Python `bool` is a subtype of `int`,
so it satisfies this test as well; in the source it is only shielded by
the earlier `isinstance(v, bool)` branch. -/
def PyVal.isinstance_int_float : PyVal → Bool
  | .bool _ => true
  | .int _ => true
  | .float _ => true
  | _ => false

/-- `isinstance(v, Decimal)`. -/
def PyVal.isinstance_decimal : PyVal → Bool
  | .decimal _ => true
  | _ => false

/-- `isinstance(v, (datetime, date))`. -/
def PyVal.isinstance_date_or_datetime : PyVal → Bool
  | .date .. => true
  | .datetime .. => true
  | _ => false

/-- `v is None`. -/
def PyVal.is_none : PyVal → Bool
  | .none => true
  | _ => false

/-- `str(v)` (for `date`/`datetime`, `str` coincides with `isoformat`,
with a space separator for `datetime`). -/
def PyVal.pyStr : PyVal → String
  | .none => "None"
  | .bool b => if b then "True" else "False"
  | .int n => pyIntStr n
  | .float s => s
  | .decimal d => formatF d
  | .date y m d => isoDate y m d
  | .datetime y mo d h mi s => isoDate y mo d ++ " " ++ pad2 h ++ ":" ++ pad2 mi ++ ":" ++ pad2 s
  | .str s => s
  | .other _ sf => sf

/-- The boolean payload, only consulted under the `isinstance_bool` guard. -/
def PyVal.asBool : PyVal → Bool
  | .bool b => b
  | _ => false

/-- The `Decimal` payload, only consulted under `isinstance_decimal`. -/
def PyVal.asDecimal : PyVal → PyDecimal
  | .decimal d => d
  | _ => ⟨false, 0, 0⟩

/-- `v.isoformat()`, only consulted under `isinstance_date_or_datetime`. -/
def PyVal.isoformat : PyVal → String
  | .date y m d => isoDate y m d
  | .datetime y mo d h mi s => isoDatetime y mo d h mi s
  | _ => ""

/-- Whether `json.dumps(v)` succeeds. -/
def PyVal.jsonSerializable : PyVal → Bool
  | .none => true
  | .bool _ => true
  | .int _ => true
  | .float _ => true
  | .decimal _ => false
  | .date .. => false
  | .datetime .. => false
  | .str _ => true
  | .other ok _ => ok

/-- The JSON-level shape `_normalize_value_for_json` produces:
`null`, a boolean, a tagged numeric object `{"__num__": s}`, a plain
string, or the original value passed through as-is. -/
inductive NormVal where
  | none
  | bool (b : Bool)
  | tagged (numStr : String)
  | str (s : String)
  | passthrough (v : PyVal)
  deriving Repr, DecidableEq

/-- `_normalize_value_for_json` from `scripts/xlsb_to_xlsx.py`, branch
for branch in source order.  `Option` models the exception raised when
`Decimal(str(v))` rejects its input (impossible for actual finite
ints/floats, whose `str` form always parses). -/
def _normalize_value_for_json (v : PyVal) : Option NormVal :=
  if v.is_none then some .none
  else if v.isinstance_bool then some (.bool v.asBool)
  else if v.isinstance_int_float then
    (parseDecimal v.pyStr).map (fun d => .tagged (formatF d))
  else if v.isinstance_decimal then some (.tagged (formatF v.asDecimal))
  else if v.isinstance_date_or_datetime then some (.str v.isoformat)
  else if v.jsonSerializable then some (.passthrough v)
  else some (.str v.pyStr)

/-! ### The streaming converters

`convert_xlsb_to_jsonl`, `convert_xlsx_to_jsonl` and
`convert_xlsb_to_xlsx` are modelled on an abstract workbook (a list of
named sheets of rows).  The models record, besides the outcome, whether
the output file was created: both JSONL converters execute
`open(out_path, "w")` — which creates/truncates the file — *before*
inspecting the workbook's sheet count, while the xlsx writer only calls
`wb_out.save` after the whole sheet streamed successfully. -/

structure Sheet where
  name : String
  rows : List (List PyVal)
  deriving Repr, DecidableEq

structure Workbook where
  sheets : List Sheet
  deriving Repr, DecidableEq

/-- The `ValueError` message raised on an out-of-range sheet index,
identical in all three converters. -/
def rangeMsg (sheet_index : Int) (n : Nat) : String :=
  "sheet_index " ++ pyIntStr sheet_index ++ " out of range (1.." ++ pyNatStr n ++ ")"

inductive ConvOutcome where
  | ok (rows : List (List NormVal))
  | rangeError (msg : String)
  | cellError
  deriving Repr, DecidableEq

/-- Result of one JSONL conversion run:  whether the output file now
exists on disk, how many rows were written to it, and the outcome. -/
structure JsonlConv where
  outputFileCreated : Bool
  rowsWritten : Nat
  outcome : ConvOutcome
  deriving Repr, DecidableEq

/-- The row loop shared by both JSONL converters: normalize each cell,
write one JSON array per row; a normalization exception aborts the run,
counting the rows already written. -/
def writeJsonlRows : List (List PyVal) → Nat × Option (List (List NormVal))
  | [] => (0, some [])
  | r :: rs =>
    match r.mapM _normalize_value_for_json with
    | Option.none => (0, Option.none)
    | some nr =>
      match writeJsonlRows rs with
      | (k, Option.none) => (k + 1, Option.none)
      | (k, some l) => (k + 1, some (nr :: l))

/-- `convert_xlsb_to_jsonl`: the output file is opened for writing
(created) first; the sheet index is validated against the sheet count
before any row is read; then rows stream one at a time.
(In the source, a cell whose `.v` is `None` is appended as `None`
without calling the normalizer — indistinguishable from normalizing it,
since `_normalize_value_for_json(None) = None`.) -/
def convert_xlsb_to_jsonl (wb : Workbook) (sheet_index : Int) : JsonlConv :=
  if sheet_index < 1 ∨ sheet_index > (wb.sheets.length : Int) then
    ⟨true, 0, .rangeError (rangeMsg sheet_index wb.sheets.length)⟩
  else
    let sheet := wb.sheets.getD (sheet_index - 1).toNat ⟨"", []⟩
    match writeJsonlRows sheet.rows with
    | (k, Option.none) => ⟨true, k, .cellError⟩
    | (k, some l) => ⟨true, k, .ok l⟩

/-- `convert_xlsx_to_jsonl`: same shape as the xlsb variant — the output
file is opened before `load_workbook` runs and before the sheet-count
check; every cell value goes through `_normalize_value_for_json`. -/
def convert_xlsx_to_jsonl (wb : Workbook) (sheet_index : Int) : JsonlConv :=
  if sheet_index < 1 ∨ sheet_index > (wb.sheets.length : Int) then
    ⟨true, 0, .rangeError (rangeMsg sheet_index wb.sheets.length)⟩
  else
    let sheet := wb.sheets.getD (sheet_index - 1).toNat ⟨"", []⟩
    match writeJsonlRows sheet.rows with
    | (k, Option.none) => ⟨true, k, .cellError⟩
    | (k, some l) => ⟨true, k, .ok l⟩

inductive XlsxOutcome where
  | ok (rows : List (List PyVal))
  | rangeError (msg : String)
  deriving Repr, DecidableEq

/-- `convert_xlsb_to_xlsx`: rows are appended to an in-memory write-only
workbook with cell values as received; `wb_out.save` — the only step
that creates the output file — runs after the sheet has streamed, so an
out-of-range sheet index leaves no output file.  The first component
records whether the output file was created. -/
def convert_xlsb_to_xlsx (wb : Workbook) (sheet_index : Int) : Bool × XlsxOutcome :=
  if sheet_index < 1 ∨ sheet_index > (wb.sheets.length : Int) then
    (false, .rangeError (rangeMsg sheet_index wb.sheets.length))
  else
    let sheet := wb.sheets.getD (sheet_index - 1).toNat ⟨"", []⟩
    (true, .ok sheet.rows)

/-! ### Format dispatch (`main` of `scripts/xlsb_to_xlsx.py`) -/

inductive Decoder where
  | binary
  | xml
  deriving Repr, DecidableEq

/-- Python `str.lower()` (ASCII range, which covers file extensions). -/
def pyLower (s : String) : String :=
  ⟨s.toList.map fun c => if 'A' ≤ c ∧ c ≤ 'Z' then Char.ofNat (c.toNat + 32) else c⟩

/-- Python `str.endswith(t)`. -/
def pyEndsWith (s t : String) : Bool :=
  s.toList.drop (s.toList.length - t.toList.length) == t.toList

/-- The dispatch logic of `main`: which decoders run (in order) and the
final outcome, given the results each converter would produce.  In JSONL
mode the decoder is chosen by the lower-cased input extension; with no
recognized extension the binary decoder is attempted and any failure
falls back to the XML decoder.  Without `--jsonl`, only binary →
spreadsheet conversion is supported. -/
def mainDispatch (jsonl : Bool) (infile : String)
    (xlsbJsonlRes xlsxJsonlRes : Except String Unit)
    (xlsbXlsxRes : Except String Unit) : List Decoder × Except String Unit :=
  if jsonl then
    let lower := pyLower infile
    if pyEndsWith lower ".xlsb" then ([.binary], xlsbJsonlRes)
    else if pyEndsWith lower ".xlsx" || pyEndsWith lower ".xls" then ([.xml], xlsxJsonlRes)
    else
      match xlsbJsonlRes with
      | .ok u => ([.binary], .ok u)
      | .error _ => ([.binary, .xml], xlsxJsonlRes)
  else ([.binary], xlsbXlsxRes)

/-! ### The job store (`scripts/conversion_worker.py`)

The SQLite `bases` table is modelled as a list of rows.  `claim_pending`
runs inside a `BEGIN IMMEDIATE` transaction, so concurrent claims on the
same store serialize: a run of N racing workers is a sequence of atomic
`claim_pending` executions (`runClaims`). -/

inductive ConversionStatus where
  | PENDING
  | RUNNING
  | READY
  | FAILED
  deriving Repr, DecidableEq

structure JobRow where
  id : Int
  arquivo_caminho : Option String
  conversion_status : ConversionStatus
  conversion_started_at : Option String
  conversion_finished_at : Option String
  arquivo_jsonl_path : Option String
  conversion_error : Option String
  deriving Repr, DecidableEq

abbrev BasesTable := List JobRow

/-- `SELECT id, arquivo_caminho FROM bases WHERE conversion_status =
'PENDING' ORDER BY id LIMIT 1` — the PENDING row of minimal id
(first such row on equal ids). -/
def selectOldestPendingAux : List JobRow → Option JobRow
  | [] => Option.none
  | r :: rs =>
    match selectOldestPendingAux rs with
    | Option.none => some r
    | some best => if r.id ≤ best.id then some r else some best

def selectOldestPending (t : BasesTable) : Option JobRow :=
  selectOldestPendingAux (t.filter fun r => r.conversion_status == .PENDING)

/-- The `WHERE id = ? AND conversion_status = 'PENDING'` condition of the
conditional update. -/
def claimMatches (baseId : Int) (r : JobRow) : Bool :=
  r.id == baseId && r.conversion_status == .PENDING

/-- The `SET conversion_status = 'RUNNING', conversion_started_at = ?`
assignment. -/
def applyClaim (now : String) (r : JobRow) : JobRow :=
  { r with conversion_status := .RUNNING, conversion_started_at := some now }

/-- The conditional `UPDATE`, returning the new table and `cur.rowcount`
(the number of rows the `WHERE` clause matched). -/
def updateClaim (t : BasesTable) (now : String) (baseId : Int) : BasesTable × Nat :=
  (t.map fun r => if claimMatches baseId r then applyClaim now r else r,
   t.countP (claimMatches baseId))

/-- `claim_pending`: select the oldest PENDING row; conditionally update
it to RUNNING re-checking it is still PENDING; if the update affected
zero rows, commit empty and report nothing claimed; otherwise commit and
return `(id, arquivo_caminho)`. -/
def claim_pending (now : String) (t : BasesTable) :
    Option (Int × Option String) × BasesTable :=
  match selectOldestPending t with
  | Option.none => (Option.none, t)
  | some row =>
    let u := updateClaim t now row.id
    if u.2 = 0 then (Option.none, u.1)
    else (some (row.id, row.arquivo_caminho), u.1)

/-- N workers racing on the same store: by `BEGIN IMMEDIATE` write
exclusion their claim transactions serialize into a sequence of atomic
`claim_pending` runs; the list collects each worker's observation. -/
def runClaims (now : String) : BasesTable → Nat → List (Option (Int × Option String)) × BasesTable
  | t, 0 => ([], t)
  | t, n + 1 =>
    let s := claim_pending now t
    let rest := runClaims now s.2 n
    (s.1 :: rest.1, rest.2)

/-- Number of PENDING rows. -/
def countPending (t : BasesTable) : Nat :=
  t.countP fun r => r.conversion_status == .PENDING

/-- Points in `claim_pending` where the SQLite layer can raise.
`atBegin` is the `cur.execute("BEGIN IMMEDIATE")` statement, which in
the source sits *outside* the `try` block. -/
inductive ClaimFault where
  | atBegin
  | atSelect
  | atUpdate
  | atCommit
  deriving Repr, DecidableEq

/-- `claim_pending` under an injected SQLite fault.  A fault at BEGIN
propagates (`Except.error`); a fault inside the `try` body is caught,
the transaction is rolled back — restoring the pre-transaction table —
and `None` is returned.  A commit fault on the successful-update path
likewise rolls the update back. -/
def claim_pending_faulty (now : String) (fault : Option ClaimFault) (t : BasesTable) :
    Except Unit (Option (Int × Option String)) × BasesTable :=
  if fault = some .atBegin then (.error (), t)
  else if fault = some .atSelect then (.ok Option.none, t)
  else
    match selectOldestPending t with
    | Option.none =>
      -- commit of the empty transaction; a fault here is caught, rollback is a no-op
      (.ok Option.none, t)
    | some row =>
      if fault = some .atUpdate then (.ok Option.none, t)
      else
        let u := updateClaim t now row.id
        if u.2 = 0 then (.ok Option.none, u.1)
        else if fault = some .atCommit then (.ok Option.none, t)
        else (.ok (some (row.id, row.arquivo_caminho)), u.1)

/-- `update_status`: one `UPDATE bases SET ... WHERE id = ?` writing the
terminal status, `conversion_finished_at`, and optionally
`arquivo_jsonl_path` / `conversion_error`. -/
def update_status (t : BasesTable) (now : String) (baseId : Int)
    (status : ConversionStatus) (jsonlRel : Option String) (errorMsg : Option String) :
    BasesTable :=
  t.map fun r =>
    if r.id == baseId then
      { r with
        conversion_status := status
        conversion_finished_at := some now
        arquivo_jsonl_path := match jsonlRel with | some j => some j | Option.none => r.arquivo_jsonl_path
        conversion_error := match errorMsg with | some e => some e | Option.none => r.conversion_error }
    else r

/-! ### Path resolver (`resolve_uploaded_path`)

POSIX `os.path` primitives are modelled concretely; the filesystem is a
boolean predicate on absolute paths. -/

/-- Python `str.lstrip(chars)`: drop leading characters belonging to the
given set (note: a *set* of characters, not a prefix string). -/
def pyLstripAux (chars : List Char) : List Char → List Char
  | [] => []
  | c :: rest => if chars.contains c then pyLstripAux chars rest else c :: rest

def pyLstrip (s : String) (chars : List Char) : String :=
  ⟨pyLstripAux chars s.toList⟩

/-- `os.path.isabs` (POSIX): the path begins with a slash. -/
def isAbsPath (s : String) : Bool :=
  match s.toList with
  | '/' :: _ => true
  | _ => false

/-- Last character of a string, if any. -/
def lastChar (s : String) : Option Char := s.toList.getLast?

/-- `os.path.join(a, b)` (POSIX, two arguments). -/
def osJoin (a b : String) : String :=
  if isAbsPath b then b
  else if a = "" || lastChar a == some '/' then a ++ b
  else a ++ "/" ++ b

/-- `os.path.basename(p)`: the part after the final slash. -/
def osBasename (p : String) : String :=
  ⟨(p.toList.reverse.takeWhile (fun c => c ≠ '/')).reverse⟩

/-- Component pass of `posixpath.normpath`: drop empty and `.` parts,
resolve `..` against the accumulated stack (kept reversed). -/
def normpathComps (isAbs : Bool) : List String → List String → List String
  | acc, [] => acc.reverse
  | acc, c :: rest =>
    if c = "" ∨ c = "." then normpathComps isAbs acc rest
    else if c ≠ ".." ∨ (¬ isAbs ∧ acc = []) ∨ acc.headD "" = ".." then
      normpathComps isAbs (c :: acc) rest
    else
      match acc with
      | _ :: accTail => normpathComps isAbs accTail rest
      | [] => normpathComps isAbs acc rest

/-- Split a path on `'/'` (the `path.split('/')` of `posixpath.normpath`). -/
def splitSlashAux : List Char → List Char → List String
  | [], acc => [⟨acc.reverse⟩]
  | c :: rest, acc =>
    if c = '/' then ⟨acc.reverse⟩ :: splitSlashAux rest []
    else splitSlashAux rest (c :: acc)

def splitSlash (s : String) : List String := splitSlashAux s.toList []

/-- Join path components with `'/'`. -/
def joinWithSlash : List String → String
  | [] => ""
  | [x] => x
  | x :: rest => x ++ "/" ++ joinWithSlash rest

/-- `os.path.normpath` (POSIX): one or three-plus leading slashes
collapse to one, exactly two are preserved. -/
def normpath (p : String) : String :=
  if p = "" then "."
  else
    let slashes : Nat :=
      match p.toList with
      | '/' :: '/' :: '/' :: _ => 1
      | '/' :: '/' :: _ => 2
      | '/' :: _ => 1
      | _ => 0
    let comps := normpathComps (slashes ≠ 0) [] (splitSlash p)
    let res := (String.mk (List.replicate slashes '/')) ++ joinWithSlash comps
    if res = "" then "." else res

/-- `os.path.abspath` relative to a working directory. -/
def abspath (cwd p : String) : String :=
  normpath (if isAbsPath p then p else osJoin cwd p)

/-- Module-level configuration of the worker (values of `SCRIPT_DIR`,
`REPO_ROOT`, `DATA_DIR`, `UPLOAD_DIR_ENV`). -/
structure WorkerConfig where
  scriptDir : String
  repoRoot : String
  dataDir : String
  uploadDirEnv : String

/-- The ambient filesystem: the working directory and which paths exist. -/
structure FsEnv where
  cwd : String
  pathExists : String → Bool

/-- The local `add` closure: skip falsy candidates, normalize via
`os.path.abspath`, de-duplicate, keep insertion order. -/
def addCandidate (cwd : String) (cands : List String) (c : String) : List String :=
  if c = "" then cands
  else
    let norm := abspath cwd c
    if cands.contains norm then cands else cands ++ [norm]

/-- The ordered, de-duplicated candidate list `resolve_uploaded_path`
constructs for a non-empty `arquivo_caminho`. -/
def buildCandidates (cfg : WorkerConfig) (cwd : String) (a : String) : List String :=
  let cleaned := pyLstrip a ['.', '/']
  let add := addCandidate cwd
  let cands : List String :=
    if isAbsPath a then add [] a
    else
      let c1 := add [] (osJoin cwd a)
      let c2 := add c1 (osJoin cwd cleaned)
      let c3 := add c2 (osJoin cfg.scriptDir a)
      let c4 := add c3 (osJoin cfg.scriptDir cleaned)
      let c5 := add c4 (osJoin cfg.repoRoot a)
      let c6 := add c5 (osJoin cfg.repoRoot cleaned)
      let c7 := add c6 (osJoin (osJoin (osJoin cfg.repoRoot "apps") "api") a)
      add c7 (osJoin (osJoin (osJoin cfg.repoRoot "apps") "api") cleaned)
  let cands := add cands (osJoin "/home/app" a)
  let cands := add cands (osJoin (osJoin (osJoin "/home/app" "apps") "api") a)
  let cands := add cands (osJoin (osJoin "/home/app" "apps") a)
  let cands :=
    if cfg.dataDir ≠ "" then
      let d1 := add cands (osJoin cfg.dataDir a)
      let d2 := add d1 (osJoin cfg.dataDir cleaned)
      add d2 (osJoin (osJoin cfg.dataDir "uploads") (osBasename cleaned))
    else cands
  if cfg.uploadDirEnv ≠ "" then
    add cands (osJoin cfg.uploadDirEnv (osBasename cleaned))
  else cands

/-- `resolve_uploaded_path`: first existing candidate, plus the full
ordered candidate list for diagnostics. -/
def resolve_uploaded_path (cfg : WorkerConfig) (env : FsEnv) (arquivo : Option String) :
    Option String × List String :=
  match arquivo with
  | Option.none => (Option.none, [])
  | some a =>
    if a = "" then (Option.none, [])
    else
      let cands := buildCandidates cfg env.cwd a
      match cands.find? env.pathExists with
      | some c => (some c, cands)
      | Option.none => (Option.none, cands)

/-- The resolution step of `main_loop` for a freshly claimed job: on
resolution failure the job is marked FAILED with the fixed error message
`'uploaded file not found'` (the candidate list is only printed to the
log); on success the table is untouched and the absolute input path is
returned. -/
def processResolution (cfg : WorkerConfig) (env : FsEnv) (t : BasesTable) (now : String)
    (baseId : Int) (arquivo : Option String) : BasesTable × Option String :=
  match resolve_uploaded_path cfg env arquivo with
  | (Option.none, _cands) =>
    (update_status t now baseId .FAILED Option.none (some "uploaded file not found"),
     Option.none)
  | (some p, _cands) => (t, some p)

/-! ### Poll/backoff policy of `main_loop` -/

/-- What one iteration of `main_loop` encounters. -/
inductive LoopEvent where
  | connectFail
  | idlePoll
  | jobProcessed
  | loopFault
  deriving Repr, DecidableEq

structure LoopConfig where
  pollInterval : ℚ
  backoffMax : ℚ

/-- Python's two-argument `min` (returns the first argument on ties). -/
def pymin (a b : ℚ) : ℚ := if b < a then b else a

/-- One iteration of `main_loop`, as a function of the current `backoff`
variable and the event encountered: returns the backoff after the
iteration and the duration slept during it (if any).

* `connectFail`: `connect_db` raised — sleep `min(backoff, BACKOFF_MAX_SECONDS)`,
  then `backoff = min(backoff * 2, BACKOFF_MAX_SECONDS)`.
* otherwise the connection opened, so the loop first resets
  `backoff = POLL_INTERVAL`; an idle poll sleeps exactly `POLL_INTERVAL`;
  a processed job does not sleep; a loop-level fault sleeps
  `min(backoff, max)` with the freshly reset value and then doubles it. -/
def loopStep (cfg : LoopConfig) (backoff : ℚ) : LoopEvent → ℚ × Option ℚ
  | .connectFail => (pymin (backoff * 2) cfg.backoffMax, some (pymin backoff cfg.backoffMax))
  | .idlePoll => (cfg.pollInterval, some cfg.pollInterval)
  | .jobProcessed => (cfg.pollInterval, Option.none)
  | .loopFault =>
    (pymin (cfg.pollInterval * 2) cfg.backoffMax,
     some (pymin cfg.pollInterval cfg.backoffMax))

/-- The sleeps performed over a sequence of iterations, starting from a
given `backoff` value (`main_loop` initializes it to `POLL_INTERVAL`). -/
def loopSleeps (cfg : LoopConfig) : ℚ → List LoopEvent → List ℚ
  | _, [] => []
  | b, e :: es =>
    match loopStep cfg b e with
    | (b2, some d) => d :: loopSleeps cfg b2 es
    | (b2, Option.none) => loopSleeps cfg b2 es

/-- The defaults: `POLL_INTERVAL = 5`, `WORKER_BACKOFF_MAX_SECONDS = 30`. -/
def defaultLoopConfig : LoopConfig := ⟨5, 30⟩

/-- Whether `needle` occurs as a contiguous substring of `hay`. -/
def strContainsSub (hay needle : String) : Bool :=
  (List.range (hay.toList.length + 1)).any fun i =>
    (hay.toList.drop i).take needle.toList.length == needle.toList

end AlTool

namespace AlTool

/-! ## Claims -/

/-- **C3** Numeric round-trip.  (1) A cell holding the binary float
nearest 19.99 — canonical string form `"19.99"` — normalizes to the
tagged numeric string `"19.99"`.  (2) No binary64 value (a dyadic
rational `m / 2^48` at this magnitude) equals `19.99` exactly, so the
output cannot come from widening the binary value itself.  (3) For every
int or float cell, the tagged decimal string is produced by parsing the
value's canonical string form (`Decimal(str(v))`) and rendering it in
fixed point — never from the binary value directly. -/
theorem numeric_round_trip :
    (_normalize_value_for_json (.float "19.99") = some (.tagged "19.99")) ∧
    (∀ m : ℤ, (m : ℚ) / 2 ^ 48 ≠ 1999 / 100) ∧
    (∀ v : PyVal, v.isinstance_int_float = true → v.isinstance_bool = false →
      _normalize_value_for_json v = (parseDecimal v.pyStr).map fun d => .tagged (formatF d)) := by
  refine ⟨rfl, ?_, ?_⟩
  · intro m h
    rw [div_eq_div_iff (by positivity) (by norm_num)] at h
    have h3 : (m * 100 : ℤ) = 1999 * 2 ^ 48 := by exact_mod_cast h
    norm_num at h3
    omega
  · intro v h1 h2
    cases v with
    | bool b => simp [PyVal.isinstance_bool] at h2
    | int n => rfl
    | float s => rfl
    | none => simp [PyVal.isinstance_int_float] at h1
    | decimal d => simp [PyVal.isinstance_int_float] at h1
    | date y m d => simp [PyVal.isinstance_int_float] at h1
    | datetime y mo d h mi s => simp [PyVal.isinstance_int_float] at h1
    | str s => simp [PyVal.isinstance_int_float] at h1
    | other ok sf => simp [PyVal.isinstance_int_float] at h1

/-- Witness for C3: the mechanism clause applied to the float of
canonical form `"2.5"`. -/
theorem numeric_round_trip_witness :
    _normalize_value_for_json (.float "2.5") =
      (parseDecimal "2.5").map fun d => NormVal.tagged (formatF d) :=
  numeric_round_trip.2.2 (.float "2.5") rfl rfl

/-- **C7** Value normalization shape: `None ↦ null`; booleans pass
through unchanged and are never wrapped as tagged numerics, even though
Python `bool` satisfies the `isinstance(v, (int, float))` test; dates
and datetimes become ISO-8601 strings (2024-01-05 ↦ `"2024-01-05"`);
any other value is passed through as-is when JSON-serializable, else
coerced to its `str` form. -/
theorem value_normalization_shape :
    (_normalize_value_for_json .none = some .none) ∧
    (∀ b, _normalize_value_for_json (.bool b) = some (.bool b)) ∧
    (∀ b, (PyVal.bool b).isinstance_int_float = true) ∧
    (∀ b s, _normalize_value_for_json (.bool b) ≠ some (.tagged s)) ∧
    (∀ y m d, _normalize_value_for_json (.date y m d) = some (.str (isoDate y m d))) ∧
    (_normalize_value_for_json (.date 2024 1 5) = some (.str "2024-01-05")) ∧
    (∀ y mo d h mi s, _normalize_value_for_json (.datetime y mo d h mi s) =
      some (.str (isoDatetime y mo d h mi s))) ∧
    (∀ s, _normalize_value_for_json (.str s) = some (.passthrough (.str s))) ∧
    (∀ sf, _normalize_value_for_json (.other true sf) = some (.passthrough (.other true sf))) ∧
    (∀ sf, _normalize_value_for_json (.other false sf) = some (.str sf)) := by
  refine ⟨rfl, fun b => rfl, fun b => rfl, ?_, fun y m d => rfl, by decide,
    fun y mo d h mi s => rfl, fun s => rfl, fun sf => rfl, fun sf => rfl⟩
  intro b s h
  simp [_normalize_value_for_json, PyVal.is_none, PyVal.isinstance_bool, PyVal.asBool] at h

/-- Witness for C7: a boolean cell is never wrapped as a tagged numeric. -/
theorem value_normalization_shape_witness :
    _normalize_value_for_json (.bool true) ≠ some (.tagged "19.99") :=
  value_normalization_shape.2.2.2.1 true "19.99"

/-- **C4 (amended)** Sheet bounds: an out-of-range 1-based sheet index
makes every converter fail with the descriptive range error before any
row is read; the spreadsheet re-encoder creates no output file, but both
JSON-lines converters have already opened (created) the output file when
the error is raised. -/
theorem sheet_bounds (wb : Workbook) (idx : Int)
    (h : idx < 1 ∨ idx > (wb.sheets.length : Int)) :
    convert_xlsb_to_jsonl wb idx =
      ⟨true, 0, .rangeError (rangeMsg idx wb.sheets.length)⟩ ∧
    convert_xlsx_to_jsonl wb idx =
      ⟨true, 0, .rangeError (rangeMsg idx wb.sheets.length)⟩ ∧
    convert_xlsb_to_xlsx wb idx =
      (false, .rangeError (rangeMsg idx wb.sheets.length)) := by
  refine ⟨?_, ?_, ?_⟩ <;>
    simp only [convert_xlsb_to_jsonl, convert_xlsx_to_jsonl, convert_xlsb_to_xlsx, if_pos h]

/-- Witness for C4: sheet 5 of a 2-sheet workbook. -/
theorem sheet_bounds_witness :
    convert_xlsb_to_jsonl ⟨[⟨"S1", []⟩, ⟨"S2", []⟩]⟩ 5 =
      ⟨true, 0, .rangeError (rangeMsg 5 2)⟩ ∧
    convert_xlsx_to_jsonl ⟨[⟨"S1", []⟩, ⟨"S2", []⟩]⟩ 5 =
      ⟨true, 0, .rangeError (rangeMsg 5 2)⟩ ∧
    convert_xlsb_to_xlsx ⟨[⟨"S1", []⟩, ⟨"S2", []⟩]⟩ 5 =
      (false, .rangeError (rangeMsg 5 2)) :=
  sheet_bounds ⟨[⟨"S1", []⟩, ⟨"S2", []⟩]⟩ 5 (by decide)

/-- Counterexample to C4 as stated: requesting sheet 5 of a 2-sheet
workbook in JSON-lines mode raises the descriptive range error, yet the
output file *was* created (opened for writing before the check), with
zero rows in it — contradicting "creates no output file". -/
theorem sheet_bounds_counterexample :
    (convert_xlsb_to_jsonl ⟨[⟨"S1", [[]]⟩, ⟨"S2", [[]]⟩]⟩ 5).outputFileCreated = true ∧
    (convert_xlsb_to_jsonl ⟨[⟨"S1", [[]]⟩, ⟨"S2", [[]]⟩]⟩ 5).rowsWritten = 0 ∧
    (convert_xlsb_to_jsonl ⟨[⟨"S1", [[]]⟩, ⟨"S2", [[]]⟩]⟩ 5).outcome =
      .rangeError "sheet_index 5 out of range (1..2)" := by
  refine ⟨rfl, rfl, rfl⟩

/-- **C9** Format dispatch: in JSON-lines mode the decoder follows the
input extension (binary for `.xlsb`, XML for `.xlsx`/`.xls`); any other
extension tries the binary decoder first and falls back to the XML
decoder exactly when the binary decoder fails; without `--jsonl` only
binary → spreadsheet conversion runs. -/
theorem format_dispatch (infile : String) (rb rx rs : Except String Unit) :
    (pyEndsWith (pyLower infile) ".xlsb" = true →
      mainDispatch true infile rb rx rs = ([.binary], rb)) ∧
    (pyEndsWith (pyLower infile) ".xlsb" = false →
      (pyEndsWith (pyLower infile) ".xlsx" = true ∨ pyEndsWith (pyLower infile) ".xls" = true) →
      mainDispatch true infile rb rx rs = ([.xml], rx)) ∧
    (pyEndsWith (pyLower infile) ".xlsb" = false →
      pyEndsWith (pyLower infile) ".xlsx" = false →
      pyEndsWith (pyLower infile) ".xls" = false →
      (∀ u, rb = .ok u → mainDispatch true infile rb rx rs = ([.binary], .ok u)) ∧
      (∀ e, rb = .error e → mainDispatch true infile rb rx rs = ([.binary, .xml], rx))) ∧
    (mainDispatch false infile rb rx rs = ([.binary], rs)) := by
  refine ⟨fun h1 => ?_, fun h1 h2 => ?_, fun h1 h2 h3 => ⟨fun u hu => ?_, fun e he => ?_⟩, rfl⟩
  · simp [mainDispatch, h1]
  · rcases h2 with h2 | h2 <;> simp [mainDispatch, h1, h2]
  · simp [mainDispatch, h1, h2, h3, hu]
  · simp [mainDispatch, h1, h2, h3, he]

/-- Witness for C9: an extensionless input whose binary decode fails
falls back to the XML decoder. -/
theorem format_dispatch_witness :
    mainDispatch true "upload_7" (.error "not a valid xlsb") (.ok ()) (.ok ()) =
      ([.binary, .xml], .ok ()) :=
  ((format_dispatch "upload_7" (.error "not a valid xlsb") (.ok ()) (.ok ())).2.2.1
    (by decide) (by decide) (by decide)).2 "not a valid xlsb" rfl

/-! ### Helper lemmas about the claim operation -/

theorem selectOldestPendingAux_none_iff (l : List JobRow) :
    selectOldestPendingAux l = Option.none ↔ l = [] := by
  cases l with
  | nil => simp [selectOldestPendingAux]
  | cons r rs =>
    simp only [selectOldestPendingAux]
    cases h : selectOldestPendingAux rs with
    | none => simp
    | some best => by_cases hle : r.id ≤ best.id <;> simp [hle]

theorem selectOldestPendingAux_mem (l : List JobRow) :
    ∀ r : JobRow, selectOldestPendingAux l = some r → r ∈ l := by
  induction l with
  | nil => intro r h; simp [selectOldestPendingAux] at h
  | cons a as ih =>
    intro r h
    simp only [selectOldestPendingAux] at h
    cases hrec : selectOldestPendingAux as with
    | none =>
      rw [hrec] at h
      simp only at h
      simp only [Option.some.injEq] at h
      simp [← h]
    | some best =>
      rw [hrec] at h
      simp only at h
      by_cases hle : a.id ≤ best.id
      · rw [if_pos hle] at h
        simp only [Option.some.injEq] at h
        simp [← h]
      · rw [if_neg hle] at h
        simp only [Option.some.injEq] at h
        exact List.mem_cons_of_mem a (ih r (hrec.trans (congrArg some h)))

theorem selectOldestPendingAux_min (l : List JobRow) :
    ∀ r : JobRow, selectOldestPendingAux l = some r → ∀ x ∈ l, r.id ≤ x.id := by
  induction l with
  | nil => intro r h; simp [selectOldestPendingAux] at h
  | cons a as ih =>
    intro r h
    simp only [selectOldestPendingAux] at h
    cases hrec : selectOldestPendingAux as with
    | none =>
      rw [hrec] at h
      simp only at h
      simp only [Option.some.injEq] at h
      have has : as = [] := (selectOldestPendingAux_none_iff as).mp hrec
      subst has
      intro x hx
      simp only [List.mem_singleton] at hx
      simp [← h, hx]
    | some best =>
      rw [hrec] at h
      simp only at h
      by_cases hle : a.id ≤ best.id
      · rw [if_pos hle] at h
        simp only [Option.some.injEq] at h
        intro x hx
        rcases List.mem_cons.mp hx with hx | hx
        · simp [← h, hx]
        · calc r.id = a.id := by rw [← h]
            _ ≤ best.id := hle
            _ ≤ x.id := ih best hrec x hx
      · rw [if_neg hle] at h
        simp only [Option.some.injEq] at h
        intro x hx
        rcases List.mem_cons.mp hx with hx | hx
        · rw [← h, hx]
          exact le_of_lt (lt_of_not_le hle)
        · rw [← h]
          exact ih best hrec x hx

theorem selectOldestPending_some {t : BasesTable} {r : JobRow}
    (h : selectOldestPending t = some r) :
    r ∈ t ∧ r.conversion_status = .PENDING ∧
      ∀ x ∈ t, x.conversion_status = .PENDING → r.id ≤ x.id := by
  have hmem := selectOldestPendingAux_mem _ _ h
  have hf := List.mem_filter.mp hmem
  refine ⟨hf.1, by simpa using hf.2, fun x hx hxp => ?_⟩
  exact selectOldestPendingAux_min _ _ h x (List.mem_filter.mpr ⟨hx, by simp [hxp]⟩)

theorem selectOldestPending_none {t : BasesTable}
    (h : countPending t = 0) : selectOldestPending t = Option.none := by
  have : t.filter (fun r => r.conversion_status == .PENDING) = [] := by
    rw [List.filter_eq_nil_iff]
    intro a ha
    exact (List.countP_eq_zero.mp h) a ha
  unfold selectOldestPending
  rw [this]
  rfl

theorem selectOldestPending_isSome {t : BasesTable}
    (h : 0 < countPending t) : ∃ r, selectOldestPending t = some r := by
  cases hs : selectOldestPending t with
  | none =>
    have hnil := (selectOldestPendingAux_none_iff _).mp hs
    rw [countPending, List.countP_eq_length_filter] at h
    rw [hnil] at h
    simp at h
  | some r => exact ⟨r, rfl⟩

/-- `claimMatches` implies PENDING, so the conditional update leaves every
non-PENDING row untouched. -/
theorem updateClaim_fixes_nonpending (now : String) (baseId : Int) (r : JobRow)
    (h : r.conversion_status ≠ .PENDING) :
    (if claimMatches baseId r then applyClaim now r else r) = r := by
  have : claimMatches baseId r = false := by
    simp [claimMatches, h]
  rw [this]
  simp

/-- Generic counting identity for a conditional map: if `q` implies `p`
and `f` destroys `p`, updating the `q`-rows removes exactly the `q`-count
from the `p`-count. -/
theorem countP_map_conditional (p q : JobRow → Bool) (f : JobRow → JobRow)
    (t : List JobRow)
    (hq : ∀ r, q r = true → p r = true)
    (hf : ∀ r, q r = true → p (f r) = false) :
    (t.map fun r => if q r then f r else r).countP p + t.countP q = t.countP p := by
  induction t with
  | nil => rfl
  | cons a as ih =>
    simp only [List.map_cons, List.countP_cons]
    by_cases hm : q a = true
    · simp [hm, hf a hm, hq a hm] at ih ⊢
      omega
    · have hm2 : q a = false := by revert hm; cases q a <;> simp
      simp [hm2] at ih ⊢
      omega

theorem countPending_updateClaim (t : BasesTable) (now : String) (baseId : Int) :
    countPending (updateClaim t now baseId).1 + t.countP (claimMatches baseId) =
      countPending t := by
  refine countP_map_conditional _ (claimMatches baseId) (applyClaim now) t ?_ ?_
  · intro r hr
    simp only [claimMatches, Bool.and_eq_true] at hr
    exact hr.2
  · intro r hr
    rfl

theorem updateClaim_rowcount_zero {t : BasesTable} {now : String} {baseId : Int}
    (h : (updateClaim t now baseId).2 = 0) : (updateClaim t now baseId).1 = t := by
  have hall : ∀ r ∈ t, claimMatches baseId r = false := by
    intro r hr
    have := List.countP_eq_zero.mp h r hr
    simpa using this
  show t.map _ = t
  rw [List.map_congr_left (fun r hr => ?_), List.map_id]
  · rw [hall r hr]
    rfl

/-- The table `claim_pending` commits is either the untouched table or
the result of the conditional update. -/
theorem claim_pending_table (now : String) (t : BasesTable) :
    (claim_pending now t).2 = t ∨
      ∃ baseId, (claim_pending now t).2 = (updateClaim t now baseId).1 := by
  cases hsel : selectOldestPending t with
  | none => left; simp [claim_pending, hsel]
  | some row =>
    right
    refine ⟨row.id, ?_⟩
    simp only [claim_pending, hsel]
    by_cases hz : (updateClaim t now row.id).2 = 0 <;> simp [hz]

/-- With exactly one PENDING row, `claim_pending` succeeds and leaves no
PENDING row behind. -/
theorem claim_pending_one (now : String) {t : BasesTable}
    (h1 : countPending t = 1) :
    (claim_pending now t).1.isSome = true ∧ countPending (claim_pending now t).2 = 0 := by
  obtain ⟨row, hsel⟩ := selectOldestPending_isSome (t := t) (by omega)
  obtain ⟨hmem, hpend, -⟩ := selectOldestPending_some hsel
  have hcnt : 0 < t.countP (claimMatches row.id) :=
    List.countP_pos_iff.mpr ⟨row, hmem, by simp [claimMatches, hpend]⟩
  have hbal := countPending_updateClaim t now row.id
  simp only [claim_pending, hsel]
  have hz : (updateClaim t now row.id).2 ≠ 0 := by
    show t.countP (claimMatches row.id) ≠ 0
    omega
  rw [if_neg hz]
  exact ⟨rfl, by simp only [updateClaim] at hbal ⊢; omega⟩

theorem claim_pending_empty (now : String) {t : BasesTable}
    (h : countPending t = 0) : claim_pending now t = (Option.none, t) := by
  simp [claim_pending, selectOldestPending_none h]

theorem runClaims_length (now : String) (t : BasesTable) (n : Nat) :
    (runClaims now t n).1.length = n := by
  induction n generalizing t with
  | zero => rfl
  | succ n ih => simp [runClaims, ih]

theorem runClaims_all_none (now : String) {t : BasesTable} (n : Nat)
    (h : countPending t = 0) :
    (runClaims now t n).1 = List.replicate n Option.none := by
  induction n generalizing t with
  | zero => rfl
  | succ n ih =>
    simp only [runClaims]
    rw [claim_pending_empty now h]
    simp [ih h, List.replicate_succ]

/-- **C1** At-most-one claim: `claim_pending` runs inside a
`BEGIN IMMEDIATE` (write-exclusive) transaction and conditionally
updates to RUNNING re-checking the row is still PENDING, reporting no
job when zero rows are affected; consequently, when N workers race on a
store holding exactly one PENDING job, their serialized claims produce
exactly one success and N−1 "no job" observations. -/
theorem at_most_one_claim (now : String) (t : BasesTable) (N : Nat)
    (hN : 1 ≤ N) (h1 : countPending t = 1) :
    (runClaims now t N).1.countP Option.isSome = 1 ∧
    (runClaims now t N).1.length = N := by
  refine ⟨?_, runClaims_length now t N⟩
  obtain ⟨n, rfl⟩ : ∃ n, N = n + 1 := ⟨N - 1, by omega⟩
  obtain ⟨hsome, hzero⟩ := claim_pending_one now h1
  simp only [runClaims]
  rw [runClaims_all_none now n hzero]
  rw [List.countP_cons]
  have : (List.replicate n (Option.none : Option (Int × Option String))).countP
      Option.isSome = 0 := by
    rw [List.countP_eq_zero]
    intro a ha
    rw [(List.mem_replicate.mp ha).2]
    simp
  rw [this, hsome]
  simp

/-- Witness for C1: three workers, one PENDING job. -/
theorem at_most_one_claim_witness :
    ((runClaims "2024-01-01 00:00:00+00:00"
        [⟨1, some "u.xlsb", .PENDING, Option.none, Option.none, Option.none, Option.none⟩]
        3).1.countP Option.isSome = 1) ∧
    ((runClaims "2024-01-01 00:00:00+00:00"
        [⟨1, some "u.xlsb", .PENDING, Option.none, Option.none, Option.none, Option.none⟩]
        3).1.length = 3) :=
  at_most_one_claim "2024-01-01 00:00:00+00:00"
    [⟨1, some "u.xlsb", .PENDING, Option.none, Option.none, Option.none, Option.none⟩]
    3 (by omega) (by decide)

/-- **C2** No terminal regression: a READY or FAILED row survives any
claim attempt unchanged (the conditional update only touches PENDING
rows), and — ids being unique — a successful claim never names a
terminal row's id, because only a PENDING row can be selected. -/
theorem no_terminal_regression (now : String) (t : BasesTable) (r : JobRow)
    (hmem : r ∈ t)
    (hterm : r.conversion_status = .READY ∨ r.conversion_status = .FAILED) :
    r ∈ (claim_pending now t).2 ∧
    (∀ id ref, (claim_pending now t).1 = some (id, ref) →
      (t.map JobRow.id).Nodup → id ≠ r.id) := by
  have hnp : r.conversion_status ≠ .PENDING := by
    rcases hterm with h | h <;> simp [h]
  constructor
  · rcases claim_pending_table now t with hT | ⟨bid, hT⟩
    · rw [hT]; exact hmem
    · rw [hT]
      exact updateClaim_fixes_nonpending now bid r hnp ▸ List.mem_map_of_mem _ hmem
  · intro id ref hclaim hnodup heq
    cases hsel : selectOldestPending t with
    | none => simp [claim_pending, hsel] at hclaim
    | some row =>
      simp only [claim_pending, hsel] at hclaim
      by_cases hz : (updateClaim t now row.id).2 = 0
      · rw [if_pos hz] at hclaim
        exact Option.noConfusion hclaim
      · rw [if_neg hz] at hclaim
        simp only [Option.some.injEq, Prod.mk.injEq] at hclaim
        obtain ⟨hrmem, hrpend, -⟩ := selectOldestPending_some hsel
        have hrow_r : row = r :=
          List.inj_on_of_nodup_map hnodup hrmem hmem (by rw [hclaim.1, heq])
        rw [hrow_r] at hrpend
        exact hnp hrpend

/-- Witness for C2: a READY row next to a PENDING row. -/
theorem no_terminal_regression_witness :
    (⟨1, some "a.xlsb", .READY, Option.none, Option.none, Option.none, Option.none⟩ : JobRow) ∈
      (claim_pending "T"
        [⟨1, some "a.xlsb", .READY, Option.none, Option.none, Option.none, Option.none⟩,
         ⟨2, some "b.xlsb", .PENDING, Option.none, Option.none, Option.none, Option.none⟩]).2 ∧
    (∀ id ref,
      (claim_pending "T"
        [⟨1, some "a.xlsb", .READY, Option.none, Option.none, Option.none, Option.none⟩,
         ⟨2, some "b.xlsb", .PENDING, Option.none, Option.none, Option.none, Option.none⟩]).1 =
        some (id, ref) →
      ([⟨1, some "a.xlsb", .READY, Option.none, Option.none, Option.none, Option.none⟩,
        ⟨2, some "b.xlsb", .PENDING, Option.none, Option.none, Option.none, Option.none⟩].map
          JobRow.id).Nodup →
      id ≠ 1) :=
  no_terminal_regression "T"
    [⟨1, some "a.xlsb", .READY, Option.none, Option.none, Option.none, Option.none⟩,
     ⟨2, some "b.xlsb", .PENDING, Option.none, Option.none, Option.none, Option.none⟩]
    ⟨1, some "a.xlsb", .READY, Option.none, Option.none, Option.none, Option.none⟩
    (by decide) (Or.inl rfl)

/-- **C8** Claim ordering: a successful claim returns the id and
`sourceRef` of a PENDING row whose id is minimal among all PENDING rows
— the oldest job in creation order. -/
theorem claim_ordering (now : String) (t : BasesTable) (id : Int) (ref : Option String)
    (h : (claim_pending now t).1 = some (id, ref)) :
    ∃ r ∈ t, r.id = id ∧ r.arquivo_caminho = ref ∧ r.conversion_status = .PENDING ∧
      ∀ x ∈ t, x.conversion_status = .PENDING → id ≤ x.id := by
  cases hsel : selectOldestPending t with
  | none => simp [claim_pending, hsel] at h
  | some row =>
    simp only [claim_pending, hsel] at h
    by_cases hz : (updateClaim t now row.id).2 = 0
    · rw [if_pos hz] at h
      exact Option.noConfusion h
    · rw [if_neg hz] at h
      simp only [Option.some.injEq, Prod.mk.injEq] at h
      obtain ⟨hmem, hpend, hmin⟩ := selectOldestPending_some hsel
      exact ⟨row, hmem, h.1, h.2, hpend, fun x hx hxp => h.1 ▸ hmin x hx hxp⟩

/-- Witness for C8: the PENDING row with the smaller id wins. -/
theorem claim_ordering_witness :
    ∃ r ∈ ([⟨9, some "late.xlsb", .PENDING, Option.none, Option.none, Option.none, Option.none⟩,
            ⟨4, some "early.xlsb", .PENDING, Option.none, Option.none, Option.none, Option.none⟩] :
        BasesTable),
      r.id = 4 ∧ r.arquivo_caminho = some "early.xlsb" ∧ r.conversion_status = .PENDING ∧
      ∀ x ∈ ([⟨9, some "late.xlsb", .PENDING, Option.none, Option.none, Option.none, Option.none⟩,
              ⟨4, some "early.xlsb", .PENDING, Option.none, Option.none, Option.none, Option.none⟩] :
          BasesTable),
        x.conversion_status = .PENDING → 4 ≤ x.id :=
  claim_ordering "T"
    [⟨9, some "late.xlsb", .PENDING, Option.none, Option.none, Option.none, Option.none⟩,
     ⟨4, some "early.xlsb", .PENDING, Option.none, Option.none, Option.none, Option.none⟩]
    4 (some "early.xlsb") (by decide)

/-- **C10 (amended)** Claim atomicity on error: any fault raised inside
the transaction body — during the select, the conditional update, or a
commit — is caught, the transaction is rolled back leaving the table
exactly as before, and the operation reports no job claimed.  (A fault
at the `BEGIN IMMEDIATE` statement itself is the one exception: it sits
outside the `try` block and propagates to the caller.) -/
theorem claim_atomic_on_fault (now : String) (t : BasesTable) (f : ClaimFault)
    (h : f ≠ .atBegin) :
    claim_pending_faulty now (some f) t = (.ok Option.none, t) := by
  cases f with
  | atBegin => exact absurd rfl h
  | atSelect => rfl
  | atUpdate =>
    simp only [claim_pending_faulty]
    cases hsel : selectOldestPending t <;> simp
  | atCommit =>
    simp only [claim_pending_faulty]
    cases hsel : selectOldestPending t with
    | none => simp
    | some row =>
      by_cases hz : (updateClaim t now row.id).2 = 0
      · simp [hz, updateClaim_rowcount_zero hz]
      · simp [hz]

/-- Witness for C10: a commit fault after a successful conditional
update rolls back, leaving the PENDING row untouched. -/
theorem claim_atomic_on_fault_witness :
    claim_pending_faulty "T" (some .atCommit)
      [⟨1, some "a.xlsb", .PENDING, Option.none, Option.none, Option.none, Option.none⟩] =
      (.ok Option.none,
       [⟨1, some "a.xlsb", .PENDING, Option.none, Option.none, Option.none, Option.none⟩]) :=
  claim_atomic_on_fault "T"
    [⟨1, some "a.xlsb", .PENDING, Option.none, Option.none, Option.none, Option.none⟩]
    .atCommit (by decide)

/-- Counterexample to C10 as stated: a fault at the `BEGIN IMMEDIATE`
statement — which the source executes *before* entering the `try`
block — escapes `claim_pending` as an exception, so the operation does
not catch every error. -/
theorem claim_atomic_counterexample :
    (claim_pending_faulty "T" (some .atBegin)
      [⟨1, some "a.xlsb", .PENDING, Option.none, Option.none, Option.none, Option.none⟩]).1 =
      .error () := rfl

/-! ### C5 and C6 -/

/-- **C5 (amended)** Resolver exhaustion: when no constructed candidate
path exists on disk, resolution returns no path together with the full
ordered candidate list, and the worker marks the job FAILED — but with
the fixed error message `'uploaded file not found'`; the candidate list
is only printed to the worker log, not recorded in the job row. -/
theorem resolver_exhaustion (cfg : WorkerConfig) (env : FsEnv) (t : BasesTable)
    (now : String) (baseId : Int) (a : String) (ha : a ≠ "")
    (hnone : ∀ c ∈ buildCandidates cfg env.cwd a, env.pathExists c = false) :
    resolve_uploaded_path cfg env (some a) =
      (Option.none, buildCandidates cfg env.cwd a) ∧
    (processResolution cfg env t now baseId (some a)).2 = Option.none ∧
    ∀ r ∈ (processResolution cfg env t now baseId (some a)).1, r.id = baseId →
      r.conversion_status = .FAILED ∧
      r.conversion_error = some "uploaded file not found" := by
  have hfind : (buildCandidates cfg env.cwd a).find? env.pathExists = Option.none := by
    rw [List.find?_eq_none]
    intro c hc
    simp [hnone c hc]
  have hres : resolve_uploaded_path cfg env (some a) =
      (Option.none, buildCandidates cfg env.cwd a) := by
    simp only [resolve_uploaded_path, if_neg ha, hfind]
  refine ⟨hres, ?_, ?_⟩
  · simp only [processResolution, hres]
  · intro r hr hid
    simp only [processResolution, hres] at hr
    simp only [update_status, List.mem_map] at hr
    obtain ⟨r0, hr0mem, hr0⟩ := hr
    by_cases h0 : r0.id == baseId
    · rw [if_pos h0] at hr0
      rw [← hr0]
      exact ⟨rfl, rfl⟩
    · rw [if_neg h0] at hr0
      rw [← hr0] at hid
      exact absurd (by simp [hid]) h0

/-- Witness config for C5: the worker's layout constants. -/
def cexCfg : WorkerConfig := ⟨"/repo/scripts", "/repo", "/repo/storage", "/repo/storage/uploads"⟩

/-- Witness environment for C5: an empty filesystem. -/
def cexEnv : FsEnv := ⟨"/srv", fun _ => false⟩

/-- Witness row for C5: the claimed job. -/
def cexRow : JobRow :=
  ⟨5, some "uploads/file.xlsb", .RUNNING, some "T0", Option.none, Option.none, Option.none⟩

/-- Witness for C5: a `sourceRef` that resolves nowhere. -/
theorem resolver_exhaustion_witness :
    resolve_uploaded_path cexCfg cexEnv (some "uploads/file.xlsb") =
      (Option.none, buildCandidates cexCfg cexEnv.cwd "uploads/file.xlsb") ∧
    (processResolution cexCfg cexEnv [cexRow] "T1" 5 (some "uploads/file.xlsb")).2 =
      Option.none ∧
    ∀ r ∈ (processResolution cexCfg cexEnv [cexRow] "T1" 5 (some "uploads/file.xlsb")).1,
      r.id = 5 →
      r.conversion_status = .FAILED ∧
      r.conversion_error = some "uploaded file not found" :=
  resolver_exhaustion cexCfg cexEnv [cexRow] "T1" 5 "uploads/file.xlsb"
    (by decide) (fun c _ => rfl)

/-- Counterexample to C5 as stated: with no candidate existing, the
first candidate tried (`/srv/uploads/file.xlsb`) does not occur in the
stored error message — the message is the fixed string
`'uploaded file not found'` and enumerates nothing. -/
theorem resolver_exhaustion_counterexample :
    (resolve_uploaded_path cexCfg cexEnv (some "uploads/file.xlsb")).1 = Option.none ∧
    (resolve_uploaded_path cexCfg cexEnv (some "uploads/file.xlsb")).2.headD "" =
      "/srv/uploads/file.xlsb" ∧
    (resolve_uploaded_path cexCfg cexEnv (some "uploads/file.xlsb")).2.length = 8 ∧
    ((processResolution cexCfg cexEnv [cexRow] "T1" 5
        (some "uploads/file.xlsb")).1.map JobRow.conversion_error) =
      [some "uploaded file not found"] ∧
    strContainsSub "uploaded file not found" "/srv/uploads/file.xlsb" = false := by
  refine ⟨by decide, by decide, by decide, by decide, by decide⟩

/-- Exponential doubling commutes with the cap: capping before a
doubling step changes nothing (for a nonnegative cap and factor ≥ 1). -/
theorem pymin_absorb (x c M : ℚ) (hc : 1 ≤ c) (hM : 0 ≤ M) :
    pymin (pymin x M * c) M = pymin (x * c) M := by
  unfold pymin
  by_cases h1 : M < x
  · rw [if_pos h1]
    by_cases h2 : M < M * c
    · rw [if_pos h2, if_pos (by nlinarith)]
    · have hMc : M * c = M := le_antisymm (not_lt.mp h2) (by nlinarith)
      rw [if_neg h2, hMc, if_pos (by nlinarith)]
  · rw [if_neg h1]

/-- A run of consecutive store-open failures sleeps the capped doubling
sequence `min(b·2^k, 30)`. -/
theorem loopSleeps_connectFail (n : Nat) (b : ℚ) :
    loopSleeps defaultLoopConfig b (List.replicate n .connectFail) =
      (List.range n).map fun k => pymin (b * 2 ^ k) 30 := by
  induction n generalizing b with
  | zero => rfl
  | succ n ih =>
    rw [List.replicate_succ, List.range_succ_eq_map]
    show pymin b 30 :: loopSleeps defaultLoopConfig (pymin (b * 2) 30)
        (List.replicate n .connectFail) = _
    rw [ih]
    simp only [List.map_cons, List.map_map]
    congr 1
    · rw [pow_zero, mul_one]
    · refine List.map_congr_left fun k _ => ?_
      show pymin (pymin (b * 2) 30 * 2 ^ k) 30 = pymin (b * 2 ^ (k + 1)) 30
      rw [pymin_absorb _ _ _ (one_le_pow₀ (by norm_num)) (by norm_num)]
      ring_nf

/-- One iteration hit by a loop-level fault: the connection opened, so
the backoff was already reset to the poll interval before the fault; the
iteration sleeps exactly 5s and hands the doubled value 10 to the next
iteration (where it is consulted only if that iteration's connect
fails, and is otherwise overwritten by the reset). -/
theorem loopSleeps_loopFault_cons (b : ℚ) (es : List LoopEvent) :
    loopSleeps defaultLoopConfig b (.loopFault :: es) =
      5 :: loopSleeps defaultLoopConfig 10 es := by
  norm_num [loopSleeps, loopStep, pymin, defaultLoopConfig]

/-- Consecutive loop-level faults sleep a constant 5s: the reset at the
top of each iteration (the connection succeeded) precedes the fault, so
the doubling never compounds. -/
theorem loopSleeps_loopFault (n : Nat) (b : ℚ) :
    loopSleeps defaultLoopConfig b (List.replicate n .loopFault) =
      List.replicate n (5 : ℚ) := by
  induction n generalizing b with
  | zero => rfl
  | succ n ih =>
    rw [List.replicate_succ, loopSleeps_loopFault_cons, ih 10, List.replicate_succ]

/-- **C6 (amended)** Backoff growth and reset: with the default
configuration (poll 5s, cap 30s), three consecutive store-open failures
followed by an idle poll sleep 5s, 10s, 20s and then 5s again; in
general `n` consecutive open failures sleep `min(5·2^k, 30)` for
`k < n`; an idle poll (no PENDING job) always sleeps exactly the fixed
poll interval and resets the backoff to it, and a successfully processed
job resets the backoff without sleeping.  Loop-level faults, however, do
*not* escalate across consecutive failures: the backoff is reset to the
poll interval at the top of every iteration whose connection opens — and
a loop-level fault presupposes a successful connection — so each
loop-fault iteration sleeps exactly the base 5s, the doubled value 10
being consulted only if the very next connection attempt fails. -/
theorem backoff_growth_and_reset :
    (loopSleeps defaultLoopConfig 5
      [.connectFail, .connectFail, .connectFail, .idlePoll] = [5, 10, 20, 5]) ∧
    (∀ n : Nat, loopSleeps defaultLoopConfig 5 (List.replicate n .connectFail) =
      (List.range n).map fun k => pymin (5 * 2 ^ k) 30) ∧
    (∀ b : ℚ, ∀ es : List LoopEvent,
      loopSleeps defaultLoopConfig b (.idlePoll :: es) =
        5 :: loopSleeps defaultLoopConfig 5 es) ∧
    (∀ b : ℚ, loopStep defaultLoopConfig b .idlePoll = (5, some 5)) ∧
    (∀ b : ℚ, loopStep defaultLoopConfig b .jobProcessed = (5, Option.none)) ∧
    (∀ b : ℚ, ∀ es : List LoopEvent,
      loopSleeps defaultLoopConfig b (.loopFault :: es) =
        5 :: loopSleeps defaultLoopConfig 10 es) ∧
    (∀ n : Nat, ∀ b : ℚ, loopSleeps defaultLoopConfig b (List.replicate n .loopFault) =
      List.replicate n (5 : ℚ)) := by
  refine ⟨?_, fun n => loopSleeps_connectFail n 5, fun b es => rfl, fun b => rfl, fun b => rfl,
    fun b es => loopSleeps_loopFault_cons b es, fun n b => loopSleeps_loopFault n b⟩
  norm_num [loopSleeps, loopStep, pymin, defaultLoopConfig]

/-- Counterexample to C6 as stated: three consecutive loop-level faults
sleep a constant 5s, 5s, 5s — not the doubling 5s, 10s, 20s the claim's
"exponential backoff … doubling on each consecutive failure" prescribes
for loop-level faults — because the backoff is reset by the successful
connection at the top of each iteration, before the fault occurs. -/
theorem backoff_growth_counterexample :
    loopSleeps defaultLoopConfig 5 [.loopFault, .loopFault, .loopFault] = [5, 5, 5] ∧
    loopSleeps defaultLoopConfig 5 [.loopFault, .loopFault, .loopFault] ≠ [5, 10, 20] := by
  constructor
  · norm_num [loopSleeps, loopStep, pymin, defaultLoopConfig]
  · norm_num [loopSleeps, loopStep, pymin, defaultLoopConfig]

end AlTool
